import Mathlib

/-!
Verification of the prediction-market trading system against its
natural-language specification.

The development shallowly embeds the relevant source functions:

* `PaperBot`  — the paper trading bot `bot/dist/trading-bot.js`
  (state management, entry/exit gates, open/close bookkeeping, the
  cycle loop).
* `RealBot`   — the live bot `bot/real-trading-bot.ts`
  (entry gates including the resolved-market guard).
* `Persist`   — the `saveState` filesystem behaviour of both bots,
  modelled as the trace of filesystem operations it performs.
* `CryptoMath`— the probability engine `lib/crypto-math.ts`
  (z-score, one-touch, Black–Scholes delta), over the reals.
* `Route`     — the opportunity pipeline `app/api/crypto-arbitrage/route.ts`
  (model-probability selection, the delta-estimate gate, the final sort).
* `Parser`    — the free-text question parser `parseCryptoMarketQuestion`
  with its regular expressions implemented as executable matchers.

JavaScript floating-point numbers are modelled as exact rationals (ℚ)
wherever the code only adds, multiplies, divides and compares decimal
constants, and as real numbers (ℝ) in the transcendental probability
engine.  Wall-clock instants (`Date.now()`, ISO date strings) are epoch
milliseconds passed in as parameters.
-/

namespace PaperBot

/-- Trading side of a position, `'long' | 'short'` in the source. -/
inductive Side
  | long
  | short
deriving DecidableEq, Repr

/-- Bet type of a market, `'binary' | 'one-touch'` in the source. -/
inductive BetType
  | binary
  | oneTouch
deriving DecidableEq, Repr

/-- Claim direction, `'above' | 'below'` in the source. -/
inductive Direction
  | above
  | below
deriving DecidableEq, Repr

/-- Embeds the `BotConfig` record of `bot/dist/trading-bot.js`.
`pollIntervalMs` and `maxPositionsPerMarket` are omitted: no claim and no
embedded function reads them (`maxPositionsPerMarket` is never consulted by
the source either — the one-per-market rule is the `find` check in
`shouldEnterPosition`). -/
structure BotConfig where
  startingBalance : ℚ
  minEdgeToEnter : ℚ
  maxEdgeToExit : ℚ
  basePositionSize : ℚ
  edgeMultiplier : ℚ
  maxPositionSize : ℚ
  maxTotalExposure : ℚ
  minTimeToExpiry : ℚ
deriving DecidableEq, Repr

/-- The `CONFIG` constant of `bot/dist/trading-bot.js`. -/
def CONFIG : BotConfig where
  startingBalance := 1000
  minEdgeToEnter := 5/100
  maxEdgeToExit := 5/100
  basePositionSize := 25
  edgeMultiplier := 500
  maxPositionSize := 100
  maxTotalExposure := 500
  minTimeToExpiry := 1

/-- Embeds the `Position` record of the paper bot.  String identifiers are
kept; the human-readable `marketQuestion`/`crypto` text and the ISO
timestamp strings (`entryTimestamp`, `closeTimestamp`) are omitted — no
embedded computation reads them.  `expiryDate` is the instant in epoch
milliseconds (the source stores an ISO string and compares it through
`new Date`). -/
structure Position where
  id : String
  marketId : String
  targetPrice : ℚ
  direction : Direction
  betType : BetType
  expiryDate : ℚ
  side : Side
  entryPrice : ℚ
  size : ℚ
  shares : ℚ
  entryEdge : ℚ
  currentPrice : ℚ
  currentEdge : ℚ
  unrealizedPnl : ℚ
  status : String
  closeReason : Option String
  closePrice : Option ℚ
  realizedPnl : Option ℚ
deriving DecidableEq, Repr

/-- Embeds the `Trade` record pushed by `openPosition`/`closePosition`.
The clock/random-generated `id`/`positionId` strings and the timestamp are
omitted — no claim or embedded computation reads them. -/
structure Trade where
  marketId : String
  action : String
  side : Side
  price : ℚ
  size : ℚ
  shares : ℚ
  edge : ℚ
  zscoreProb : ℚ
  cryptoPrice : ℚ
  pnl : Option ℚ
deriving DecidableEq, Repr

/-- The market slice of an `ArbitrageOpportunity` as the paper bot reads it. -/
structure OppMarket where
  id : String
  targetPrice : ℚ
  direction : Direction
  betType : BetType
  expiryDate : ℚ
deriving DecidableEq, Repr

/-- An `ArbitrageOpportunity` as consumed by the paper bot: `currentPrice`
is `opp.currentPrice.price`, `zscoreProb` is `opp.zscoreProb.probability`,
`deribitProb` is the optional `opp.deribitProb?.probability`. -/
structure Opportunity where
  market : OppMarket
  currentPrice : ℚ
  polymarketProb : ℚ
  zscoreProb : ℚ
  deribitProb : Option ℚ
  edgeVsZscore : ℚ
  edgeVsDeribit : Option ℚ
deriving DecidableEq, Repr

/-- Embeds the `BotState` record.  `lastUpdate`/`lastError` (wall-clock
string and diagnostic) are omitted. -/
structure BotState where
  startingBalance : ℚ
  currentBalance : ℚ
  totalPnl : ℚ
  openPositions : List Position
  closedPositions : List Position
  trades : List Trade
  isRunning : Bool
  totalTrades : ℕ
  winningTrades : ℕ
  losingTrades : ℕ
  winRate : ℚ
  config : BotConfig
deriving DecidableEq, Repr

/-- The fresh-state branch of `loadState` (no state file present). -/
def initialState (config : BotConfig) : BotState where
  startingBalance := config.startingBalance
  currentBalance := config.startingBalance
  totalPnl := 0
  openPositions := []
  closedPositions := []
  trades := []
  isRunning := true
  totalTrades := 0
  winningTrades := 0
  losingTrades := 0
  winRate := 0
  config := config

/-- Embeds `calculatePositionSize`:
`min(base + |edge| * multiplier, maxPositionSize)`. -/
def calculatePositionSize (edge : ℚ) (config : BotConfig) : ℚ :=
  min (config.basePositionSize + |edge| * config.edgeMultiplier)
    config.maxPositionSize

/-- Embeds `getTotalExposure`: `positions.reduce((sum, p) => sum + p.size, 0)`. -/
def getTotalExposure (positions : List Position) : ℚ :=
  positions.foldl (fun sum p => sum + p.size) 0

/-- Result record of `shouldEnterPosition`.  The source's interpolated
rejection strings are abbreviated to fixed tags (their content is never
read back). -/
structure EnterCheck where
  shouldEnter : Bool
  side : Side
  edge : ℚ
  reason : Option String
deriving DecidableEq, Repr

/-- Embeds the paper bot's `shouldEnterPosition` (minimum edge, time to
expiry, one-per-market, exposure cap, balance cap, then side selection).
`now` is `Date.now()` in epoch milliseconds; the source's
`daysToExpiry = (expiry - now) / (1000*60*60*24)`. -/
def shouldEnterPosition (opp : Opportunity) (state : BotState)
    (config : BotConfig) (now : ℚ) : EnterCheck :=
  let edge := opp.edgeVsDeribit.getD opp.edgeVsZscore
  let absEdge := |edge|
  if absEdge < config.minEdgeToEnter then
    { shouldEnter := false, side := .long, edge, reason := some "min-edge" }
  else
    let daysToExpiry := (opp.market.expiryDate - now) / 86400000
    if daysToExpiry < config.minTimeToExpiry then
      { shouldEnter := false, side := .long, edge, reason := some "min-time" }
    else if state.openPositions.any (fun p => p.marketId == opp.market.id) then
      { shouldEnter := false, side := .long, edge,
        reason := some "already-have-position" }
    else
      let currentExposure := getTotalExposure state.openPositions
      let positionSize := calculatePositionSize edge config
      if currentExposure + positionSize > config.maxTotalExposure then
        { shouldEnter := false, side := .long, edge,
          reason := some "max-exposure" }
      else if positionSize > state.currentBalance then
        { shouldEnter := false, side := .long, edge,
          reason := some "insufficient-balance" }
      else
        { shouldEnter := true,
          side := if edge > 0 then .short else .long, edge, reason := none }

/-- Result record of `shouldExitPosition`. -/
structure ExitCheck where
  shouldExit : Bool
  reason : String
  currentPrice : ℚ
  currentEdge : ℚ
deriving DecidableEq, Repr

/-- Embeds the paper bot's `shouldExitPosition`: expired when the market
disappeared and expiry has passed; `edge_aligned` when the absolute edge
dropped below `maxEdgeToExit` or the edge flipped side with magnitude at
least `minEdgeToEnter`. -/
def shouldExitPosition (position : Position) (opp : Option Opportunity)
    (config : BotConfig) (now : ℚ) : ExitCheck :=
  match opp with
  | none =>
    if position.expiryDate < now then
      { shouldExit := true, reason := "expired",
        currentPrice := position.currentPrice, currentEdge := 0 }
    else
      { shouldExit := false, reason := "",
        currentPrice := position.currentPrice,
        currentEdge := position.currentEdge }
  | some opp =>
    let currentPrice := opp.polymarketProb
    let currentEdge := opp.edgeVsDeribit.getD opp.edgeVsZscore
    let absEdge := |currentEdge|
    if absEdge < config.maxEdgeToExit then
      { shouldExit := true, reason := "edge_aligned", currentPrice,
        currentEdge }
    else
      let newSide := if currentEdge > 0 then Side.short else Side.long
      if newSide ≠ position.side ∧ absEdge ≥ config.minEdgeToEnter then
        { shouldExit := true, reason := "edge_aligned", currentPrice,
          currentEdge }
      else
        { shouldExit := false, reason := "", currentPrice, currentEdge }

/-- Embeds `openPosition`.  The source mutates `state` (trade append,
`totalTrades++`, balance debit) and returns the new position; the embedding
returns the pair.  `posId` stands for the source's clock/random-generated
`pos_…` identifier. -/
def openPosition (opp : Opportunity) (side : Side) (edge : ℚ)
    (state : BotState) (config : BotConfig) (posId : String) :
    Position × BotState :=
  let size := calculatePositionSize edge config
  let entryPrice := opp.polymarketProb
  let effectivePrice := if side = .long then entryPrice else 1 - entryPrice
  let shares := size / effectivePrice
  let position : Position :=
    { id := posId
      marketId := opp.market.id
      targetPrice := opp.market.targetPrice
      direction := opp.market.direction
      betType := opp.market.betType
      expiryDate := opp.market.expiryDate
      side := side
      entryPrice := entryPrice
      size := size
      shares := shares
      entryEdge := edge
      currentPrice := entryPrice
      currentEdge := edge
      unrealizedPnl := 0
      status := "open"
      closeReason := none
      closePrice := none
      realizedPnl := none }
  let trade : Trade :=
    { marketId := opp.market.id
      action := "open"
      side := side
      price := entryPrice
      size := size
      shares := shares
      edge := edge
      zscoreProb := opp.zscoreProb
      cryptoPrice := opp.currentPrice
      pnl := none }
  (position,
    { state with
        trades := state.trades ++ [trade]
        totalTrades := state.totalTrades + 1
        currentBalance := state.currentBalance - size })

/-- Embeds `closePosition`: pnl by side, position record closed, trade
appended, balance credited with `size + pnl`, win/loss tally, position
moved from the open list (filtered by id) to the closed list. -/
def closePosition (position : Position) (currentPrice currentEdge : ℚ)
    (reason : String) (state : BotState) : BotState :=
  let pnl :=
    if position.side = .long then
      position.shares * (currentPrice - position.entryPrice)
    else
      position.shares * (position.entryPrice - currentPrice)
  let closedPos : Position :=
    { position with
        status := "closed"
        closeReason := some reason
        closePrice := some currentPrice
        realizedPnl := some pnl
        currentPrice := currentPrice
        currentEdge := currentEdge }
  let trade : Trade :=
    { marketId := position.marketId
      action := "close"
      side := position.side
      price := currentPrice
      size := position.size
      shares := position.shares
      edge := currentEdge
      zscoreProb := 0
      cryptoPrice := 0
      pnl := some pnl }
  let winningTrades := if pnl > 0 then state.winningTrades + 1
    else state.winningTrades
  let losingTrades := if pnl > 0 then state.losingTrades
    else if pnl < 0 then state.losingTrades + 1 else state.losingTrades
  { state with
      trades := state.trades ++ [trade]
      totalTrades := state.totalTrades + 1
      currentBalance := state.currentBalance + position.size + pnl
      totalPnl := state.totalPnl + pnl
      winningTrades := winningTrades
      losingTrades := losingTrades
      winRate := (winningTrades : ℚ) / max 1 ((winningTrades : ℚ) + losingTrades)
      openPositions := state.openPositions.filter (fun p => !(p.id == position.id))
      closedPositions := state.closedPositions ++ [closedPos] }

/-- Embeds the per-position body of `updateOpenPositions`. -/
def updatePosition (opps : List Opportunity) (position : Position) : Position :=
  match opps.find? (fun o => o.market.id == position.marketId) with
  | none => position
  | some opp =>
    let currentPrice := opp.polymarketProb
    let currentEdge := opp.edgeVsDeribit.getD opp.edgeVsZscore
    { position with
        currentPrice := currentPrice
        currentEdge := currentEdge
        unrealizedPnl :=
          if position.side = .long then
            position.shares * (currentPrice - position.entryPrice)
          else
            position.shares * (position.entryPrice - currentPrice) }

/-- Embeds `updateOpenPositions`: refresh price, edge and unrealized pnl of
every open position that still has a matching opportunity. -/
def updateOpenPositions (opps : List Opportunity) (state : BotState) :
    BotState :=
  { state with openPositions := state.openPositions.map (updatePosition opps) }

/-- The exit phase of `runBotCycle`: iterate over a snapshot
(`[...state.openPositions]`) of the open set, closing every position whose
exit check fires. -/
def runExits (config : BotConfig) (now : ℚ) (opps : List Opportunity)
    (state : BotState) : BotState :=
  state.openPositions.foldl
    (fun st position =>
      let opp := opps.find? (fun o => o.market.id == position.marketId)
      let check := shouldExitPosition position opp config now
      if check.shouldExit then
        closePosition position check.currentPrice check.currentEdge
          check.reason st
      else st)
    state

/-- The entry phase of `runBotCycle`: for each opportunity in order, run
the entry gates against the *current* state and open on success (the new
position is pushed before the next opportunity is examined).  `genId`
supplies the clock/random position identifiers. -/
def runEntries (config : BotConfig) (now : ℚ) (genId : ℕ → String)
    (opps : List Opportunity) (state : BotState) : BotState :=
  (opps.foldl
    (fun (acc : BotState × ℕ) opp =>
      let check := shouldEnterPosition opp acc.1 config now
      if check.shouldEnter then
        let opened := openPosition opp check.side check.edge acc.1 config
          (genId acc.2)
        ({ opened.2 with
            openPositions := opened.2.openPositions ++ [opened.1] },
          acc.2 + 1)
      else (acc.1, acc.2))
    (state, 0)).1

/-- The state transformation of one `runBotCycle` invocation (the
fetch/log/persist plumbing is outside the state machine): if no
opportunities were fetched the cycle returns before touching positions;
otherwise refresh, exits, then entries. -/
def runBotCycle (config : BotConfig) (now : ℚ) (genId : ℕ → String)
    (opps : List Opportunity) (state : BotState) : BotState :=
  if opps.isEmpty then state
  else
    runEntries config now genId opps
      (runExits config now opps (updateOpenPositions opps state))

/-- States reachable from the fresh initial state by any sequence of
position opens (`openPosition` plus the push in `runBotCycle`) and closes
(`closePosition` of some currently open position).  `hfresh` models the
uniqueness of the source's clock/random position identifiers. -/
inductive Reachable (config : BotConfig) : BotState → Prop
  | init : Reachable config (initialState config)
  | openStep (s : BotState) (hs : Reachable config s) (opp : Opportunity)
      (side : Side) (edge : ℚ) (posId : String)
      (hfresh : ∀ p ∈ s.openPositions, p.id ≠ posId) :
      Reachable config
        { (openPosition opp side edge s config posId).2 with
            openPositions :=
              (openPosition opp side edge s config posId).2.openPositions ++
                [(openPosition opp side edge s config posId).1] }
  | closeStep (s : BotState) (hs : Reachable config s) (p : Position)
      (hp : p ∈ s.openPositions) (currentPrice currentEdge : ℚ)
      (reason : String) :
      Reachable config (closePosition p currentPrice currentEdge reason s)

end PaperBot

namespace RealBot

open PaperBot (Side BetType Direction Opportunity OppMarket)

/-- Embeds the `RealBotConfig` record of `bot/real-trading-bot.ts`
(`pollIntervalMs` omitted — not read by any embedded function). -/
structure RealBotConfig where
  maxTotalExposure : ℚ
  minEdgeToEnter : ℚ
  maxEdgeToExit : ℚ
  basePositionSize : ℚ
  edgeMultiplier : ℚ
  maxPositionSize : ℚ
  minTimeToExpiry : ℚ
  dryRun : Bool
deriving DecidableEq, Repr

/-- The live bot's `CONFIG` constant ($10 hard exposure limit). -/
def REAL_CONFIG : RealBotConfig where
  maxTotalExposure := 10
  minEdgeToEnter := 5/100
  maxEdgeToExit := 5/100
  basePositionSize := 1
  edgeMultiplier := 20
  maxPositionSize := 5
  minTimeToExpiry := 1
  dryRun := false

/-- Embeds the `RealPosition` record (timestamps and order id omitted). -/
structure RealPosition where
  id : String
  marketId : String
  tokenId : String
  side : Side
  entryPrice : ℚ
  size : ℚ
  shares : ℚ
  entryEdge : ℚ
  status : String
  closePrice : Option ℚ
  realizedPnl : Option ℚ
deriving DecidableEq, Repr

/-- Embeds the `RealBotState` record (`lastUpdate`/`lastError` omitted). -/
structure RealBotState where
  maxExposure : ℚ
  currentExposure : ℚ
  totalPnl : ℚ
  openPositions : List RealPosition
  closedPositions : List RealPosition
  isRunning : Bool
deriving DecidableEq, Repr

/-- JavaScript `Math.round`: round half towards positive infinity. -/
def jsRound (x : ℚ) : ℤ := ⌊x + 1/2⌋

/-- Rounding to two decimal places, `Math.round(size * 100) / 100`. -/
def roundToCents (x : ℚ) : ℚ := (jsRound (x * 100) : ℚ) / 100

/-- Embeds the live bot's `calculatePositionSize`: linear edge scaling
capped by `maxPositionSize` and by the remaining exposure, rounded to
cents. -/
def realCalculatePositionSize (edge : ℚ) (config : RealBotConfig)
    (remainingExposure : ℚ) : ℚ :=
  roundToCents
    (min (min (config.basePositionSize + |edge| * config.edgeMultiplier)
        config.maxPositionSize)
      remainingExposure)

/-- Result record of the live bot's `shouldEnterPosition`.  The source's
interpolated rejection strings are abbreviated to fixed tags. -/
structure RealEnterCheck where
  shouldEnter : Bool
  side : Side
  edge : ℚ
  size : ℚ
  reason : Option String
deriving DecidableEq, Repr

/-- Embeds the live bot's `shouldEnterPosition`
(`bot/real-trading-bot.ts`, the variant trading against the CLOB):
resolved-market guard (`polyPrice > 0.99`, `polyPrice < 0.01`),
already-happened guard for one-touch bets (guarded by the JavaScript
truthiness of `opp.currentPrice?.price` and `targetPrice`, i.e. both
non-zero), minimum edge, minimum time to expiry, one-per-market,
remaining-exposure and minimum-size checks, then side selection. -/
def realShouldEnterPosition (opp : Opportunity) (state : RealBotState)
    (config : RealBotConfig) (now : ℚ) : RealEnterCheck :=
  let edge := opp.edgeVsDeribit.getD opp.edgeVsZscore
  let absEdge := |edge|
  let polyPrice := opp.polymarketProb
  if polyPrice > 99/100 then
    { shouldEnter := false, side := .long, edge, size := 0,
      reason := some "resolved-high" }
  else if polyPrice < 1/100 then
    { shouldEnter := false, side := .long, edge, size := 0,
      reason := some "resolved-low" }
  else if opp.currentPrice ≠ 0 ∧ opp.market.targetPrice ≠ 0 ∧
      opp.market.betType = .oneTouch ∧ opp.market.direction = .below ∧
      opp.currentPrice ≤ opp.market.targetPrice then
    { shouldEnter := false, side := .long, edge, size := 0,
      reason := some "dip-already-happened" }
  else if opp.currentPrice ≠ 0 ∧ opp.market.targetPrice ≠ 0 ∧
      opp.market.betType = .oneTouch ∧ opp.market.direction = .above ∧
      opp.currentPrice ≥ opp.market.targetPrice then
    { shouldEnter := false, side := .long, edge, size := 0,
      reason := some "target-already-hit" }
  else if absEdge < config.minEdgeToEnter then
    { shouldEnter := false, side := .long, edge, size := 0,
      reason := some "min-edge" }
  else if (opp.market.expiryDate - now) / 86400000 < config.minTimeToExpiry then
    { shouldEnter := false, side := .long, edge, size := 0,
      reason := some "min-time" }
  else if state.openPositions.any (fun p => p.marketId == opp.market.id) then
    { shouldEnter := false, side := .long, edge, size := 0,
      reason := some "already-have-position" }
  else
    let remainingExposure := config.maxTotalExposure - state.currentExposure
    if remainingExposure < 1/2 then
      { shouldEnter := false, side := .long, edge, size := 0,
        reason := some "remaining-exposure" }
    else
      let size := realCalculatePositionSize edge config remainingExposure
      if size < 1/2 then
        { shouldEnter := false, side := .long, edge, size := 0,
          reason := some "size-too-small" }
      else
        { shouldEnter := true,
          side := if edge > 0 then .short else .long, edge, size,
          reason := none }

/-- An entry check was rejected by the resolved-market guard (one of the
first two early returns of `realShouldEnterPosition`). -/
def rejectedByResolvedGuard (check : RealEnterCheck) : Prop :=
  check.reason = some "resolved-high" ∨ check.reason = some "resolved-low"

/-- A concrete opportunity whose market price sits exactly on the 0.99
boundary (its edge is zero, so outside the guard it is rejected for
insufficient edge). -/
def oppBoundary : Opportunity where
  market :=
    { id := "mkt-1", targetPrice := 100000, direction := .above,
      betType := .binary, expiryDate := 0 }
  currentPrice := 50000
  polymarketProb := 99/100
  zscoreProb := 1/2
  deribitProb := none
  edgeVsZscore := 0
  edgeVsDeribit := none

/-- A fresh live-bot state with no positions and no exposure. -/
def emptyRealState : RealBotState where
  maxExposure := 10
  currentExposure := 0
  totalPnl := 0
  openPositions := []
  closedPositions := []
  isRunning := true

end RealBot

namespace Persist

/-- A filesystem operation performed by the bots' persistence code, in
program order. -/
inductive FsOp
  | mkdirRecursive (dir : String)
  | writeFile (path : String) (contents : String)
  | rename (src : String) (dest : String)
deriving DecidableEq, Repr

/-- Node's `path.dirname` restricted to the relative slash-separated paths
the bots build (`data/bot-state.json`, `data/real-bot-state.json`): the
path up to the last separator, `"."` when there is none. -/
def dirname (path : String) : String :=
  let parts := path.splitOn "/"
  if parts.length ≤ 1 then "." else String.intercalate "/" parts.dropLast

/-- Embeds `saveState` of `bot/dist/trading-bot.js` and of both
`bot/real-trading-bot.ts` variants as the trace of filesystem operations it
performs: `mkdirSync(dir, { recursive: true })` when the state directory
does not yet exist, then a single `writeFileSync` of the serialized state
directly to the state file. -/
def saveStateOps (stateFile : String) (dirExists : Bool)
    (serialized : String) : List FsOp :=
  (if dirExists then [] else [FsOp.mkdirRecursive (dirname stateFile)]) ++
    [FsOp.writeFile stateFile serialized]

/-- The write-temp-then-rename discipline the specification describes: the
trace writes some path other than the target and then renames that path
over the target. -/
def usesTempThenRename (ops : List FsOp) (target : String) : Prop :=
  ∃ tmp contents, tmp ≠ target ∧ FsOp.writeFile tmp contents ∈ ops ∧
    FsOp.rename tmp target ∈ ops

end Persist

namespace CryptoMath

/-- Embeds `normalCDF` of `lib/crypto-math.ts`: the Abramowitz–Stegun
7.1.26 approximation of the standard normal CDF, with the source's
constants. -/
noncomputable def normalCDF (x : ℝ) : ℝ :=
  let a1 : ℝ := 0.254829592
  let a2 : ℝ := -0.284496736
  let a3 : ℝ := 1.421413741
  let a4 : ℝ := -1.453152027
  let a5 : ℝ := 1.061405429
  let p : ℝ := 0.3275911
  let sign : ℝ := if x < 0 then -1 else 1
  let x' := |x| / Real.sqrt 2
  let t := 1 / (1 + p * x')
  let y := 1 -
    (((((a5 * t + a4) * t) + a3) * t + a2) * t + a1) * t * Real.exp (-x' * x')
  0.5 * (1 + sign * y)

/-- Embeds `calculateZScore`: `ln(K/S) / (sigma * sqrt T)`.  On non-positive
inputs the source returns IEEE `Infinity` with the sign of `K - S`; those
values have no counterpart in ℝ, so the guard branch of the embedding
returns `0` and every theorem that touches the z-score assumes the
positive domain on which the claims quantify. -/
noncomputable def calculateZScore (currentPrice targetPrice volatility
    timeYears : ℝ) : ℝ :=
  if currentPrice ≤ 0 ∨ targetPrice ≤ 0 ∨ volatility ≤ 0 ∨ timeYears ≤ 0 then 0
  else
    Real.log (targetPrice / currentPrice) / (volatility * Real.sqrt timeYears)

/-- A `ProbabilityEstimate` record; the advisory `mathBreakdown` audit text
is omitted. -/
structure ProbabilityEstimate where
  method : String
  probability : ℝ
  volatilityUsed : ℝ
  timeToExpiry : ℝ
  zScore : Option ℝ
  delta : Option ℝ

/-- Embeds `calculateZScoreProbability`: the binary settle-above
probability `1 - normalCDF z`. -/
noncomputable def calculateZScoreProbability (currentPrice targetPrice
    volatility timeYears : ℝ) : ProbabilityEstimate :=
  let zScore := calculateZScore currentPrice targetPrice volatility timeYears
  let probability := 1 - normalCDF zScore
  { method := "zscore", probability, volatilityUsed := volatility,
    timeToExpiry := timeYears, zScore := some zScore, delta := none }

/-- Embeds `calculateOneTouchProbability`: the direction-internal
one-touch approximation `min(1, 2 * binaryProb)` with
`binaryProb = 1 - normalCDF z` for an upward touch (`K > S`) and
`normalCDF z` otherwise. -/
noncomputable def calculateOneTouchProbability (currentPrice targetPrice
    volatility timeYears : ℝ) : ProbabilityEstimate :=
  let zScore := calculateZScore currentPrice targetPrice volatility timeYears
  let isUpward := targetPrice > currentPrice
  let binaryProb := if isUpward then 1 - normalCDF zScore else normalCDF zScore
  let oneTouchProb := min 1 (2 * binaryProb)
  { method := "zscore", probability := oneTouchProb,
    volatilityUsed := volatility, timeToExpiry := timeYears,
    zScore := some zScore, delta := none }

/-- Embeds `calculateD1D2` with the source's default `riskFreeRate = 0`:
`d1 = (ln(S/K) + (sigma^2/2) T) / (sigma sqrt T)`, `d2 = d1 - sigma sqrt T`,
and `(0, 0)` on the source's degenerate guard `T <= 0 or sigma <= 0`. -/
noncomputable def calculateD1D2 (currentPrice strikePrice volatility
    timeYears : ℝ) : ℝ × ℝ :=
  if timeYears ≤ 0 ∨ volatility ≤ 0 then (0, 0)
  else
    let sqrtT := Real.sqrt timeYears
    let d1 := (Real.log (currentPrice / strikePrice) +
      (0 + 0.5 * volatility * volatility) * timeYears) / (volatility * sqrtT)
    let d2 := d1 - volatility * sqrtT
    (d1, d2)

/-- Embeds `calculateCallDelta`: the Black–Scholes call delta `Phi(d1)`. -/
noncomputable def calculateCallDelta (currentPrice strikePrice volatility
    timeYears : ℝ) : ℝ :=
  normalCDF (calculateD1D2 currentPrice strikePrice volatility timeYears).1

end CryptoMath

namespace Route

open PaperBot (BetType Direction)

/-- Embeds the z-score model-probability selection of the opportunity loop
in `app/api/crypto-arbitrage/route.ts`: one-touch markets use
`calculateOneTouchProbability` (direction handled internally by the
target-versus-spot comparison, no flip applied); binary markets use
`calculateZScoreProbability` and flip the probability for
`direction = below`.  The route's `effectiveTarget` is
`market.targetPrice` in both branches of its conditional, so the target is
passed through unchanged. -/
noncomputable def routeZscoreProb (betType : BetType) (direction : Direction)
    (currentPrice effectiveTarget volatility timeYears : ℝ) :
    CryptoMath.ProbabilityEstimate :=
  match betType with
  | .oneTouch =>
    CryptoMath.calculateOneTouchProbability currentPrice effectiveTarget
      volatility timeYears
  | .binary =>
    let zscoreProb := CryptoMath.calculateZScoreProbability currentPrice
      effectiveTarget volatility timeYears
    if direction = .below then
      { zscoreProb with probability := 1 - zscoreProb.probability }
    else zscoreProb

/-- The `probability` computed by the Deribit-delta branch of the route:
`min(1, 2 * baseDelta)` for one-touch markets with
`baseDelta = callDelta` when the target is above spot and `putDelta`
otherwise; `callDelta`/`putDelta` by claimed direction for binary
markets. -/
noncomputable def routeDeribitProbability (betType : BetType)
    (direction : Direction) (currentPrice effectiveTarget strikeIv
    timeYears : ℝ) : ℝ :=
  let callDelta := CryptoMath.calculateCallDelta currentPrice effectiveTarget
    strikeIv timeYears
  let putDelta := 1 - callDelta
  let isTargetAbove := effectiveTarget > currentPrice
  if betType = .oneTouch then
    min 1 (2 * (if isTargetAbove then callDelta else putDelta))
  else
    if direction = .above then callDelta else putDelta

/-- Embeds the Deribit-estimate construction of the route: the estimate is
attached only under the guard `probability > 0 && probability < 1`;
otherwise the opportunity keeps `deribitProb = undefined` and carries only
the z-score estimate. -/
noncomputable def routeDeribitEstimate (betType : BetType)
    (direction : Direction) (currentPrice effectiveTarget strikeIv
    timeYears : ℝ) : Option CryptoMath.ProbabilityEstimate :=
  let callDelta := CryptoMath.calculateCallDelta currentPrice effectiveTarget
    strikeIv timeYears
  let putDelta := 1 - callDelta
  let isTargetAbove := effectiveTarget > currentPrice
  let probability := routeDeribitProbability betType direction currentPrice
    effectiveTarget strikeIv timeYears
  if 0 < probability ∧ probability < 1 then
    some
      { method := "deribit-delta", probability := probability,
        volatilityUsed := strikeIv, timeToExpiry := timeYears, zScore := none,
        delta := some (if isTargetAbove then callDelta else putDelta) }
  else none

/-- The slice of an `ArbitrageOpportunity` that the route's final sort and
the claimed ordering read.  The edge values reaching the sort are data at
this point, modelled as exact rationals so that the ordering is
decidable. -/
structure PipelineOpp where
  edgeVsDeribit : Option ℚ
  edgeVsZscore : ℚ
  volume : ℚ
  expiryDate : ℚ
deriving DecidableEq, Repr

/-- The key the route's comparator reads:
`Math.abs(o.edgeVsDeribit ?? o.edgeVsZscore)`. -/
def sortEdgeKey (o : PipelineOpp) : ℚ := |o.edgeVsDeribit.getD o.edgeVsZscore|

/-- Embeds the final sort
`opportunities.sort((a, b) => bEdge - aEdge)`: ECMAScript
`Array.prototype.sort` is a stable sort whose comparator here orders by
`sortEdgeKey` descending; modelled as a stable merge sort with the
relation "a may come before b". -/
def sortOpportunities (l : List PipelineOpp) : List PipelineOpp :=
  l.mergeSort (fun a b => sortEdgeKey b ≤ sortEdgeKey a)

/-- The key the specification claims the list is ranked by:
`max(|edgeDelta|, |edgeZ|)` when the delta edge is present. -/
def specEdgeKey (o : PipelineOpp) : ℚ :=
  match o.edgeVsDeribit with
  | some d => max |d| |o.edgeVsZscore|
  | none => |o.edgeVsZscore|

/-- The pairwise order the specification claims for the output list:
descending `specEdgeKey`, higher volume first on ties, earlier expiry
first on double ties. -/
def specOrdered (a b : PipelineOpp) : Prop :=
  specEdgeKey b < specEdgeKey a ∨
    (specEdgeKey b = specEdgeKey a ∧
      (b.volume < a.volume ∨
        (b.volume = a.volume ∧ a.expiryDate ≤ b.expiryDate)))

instance (a b : PipelineOpp) : Decidable (specOrdered a b) := by
  unfold specOrdered
  infer_instance

/-- A pair of opportunities on which the claimed ranking and the code's
comparator disagree: `oppSmallDelta` has a small delta edge but a large
z-score edge (spec key `1/2`, code key `1/100`); `oppMidDelta` has both
edges equal to `1/5`. -/
def oppSmallDelta : PipelineOpp where
  edgeVsDeribit := some (1/100)
  edgeVsZscore := 1/2
  volume := 0
  expiryDate := 0

/-- Companion to `oppSmallDelta`; see there. -/
def oppMidDelta : PipelineOpp where
  edgeVsDeribit := some (1/5)
  edgeVsZscore := 1/5
  volume := 0
  expiryDate := 0

end Route

namespace Parser

open PaperBot (BetType Direction)

/-- The character list of a string literal (the parser's regular
expressions are embedded as executable matchers over character lists). -/
def lit (s : String) : List Char := s.toList

/-- JavaScript regex `\w`: ASCII letters, digits and underscore. -/
def isWordChar (c : Char) : Bool := c.isAlpha || c.isDigit || c == '_'

/-- JavaScript regex `\s` restricted to the ASCII whitespace the market
questions contain. -/
def isSpaceChar (c : Char) : Bool :=
  c == ' ' || c == '\t' || c == '\n' || c == '\r' || c == '\x0b' || c == '\x0c'

/-- Case-insensitive character comparison (the `/i` regex flag). -/
def lcEq (a b : Char) : Bool := a.toLower == b.toLower

/-- Does the pattern match case-insensitively at the head of `s`? -/
def startsWithCI : List Char → List Char → Bool
  | [], _ => true
  | _ :: _, [] => false
  | p :: ps, c :: cs => lcEq p c && startsWithCI ps cs

/-- `/pat/i.test(s)` for a literal pattern: case-insensitive substring
search. -/
def containsCI (pat : List Char) : List Char → Bool
  | [] => pat.isEmpty
  | c :: cs => startsWithCI pat (c :: cs) || containsCI pat cs

/-- Matches `pat` at the head of `s` with a closing word boundary `\b`
and, when `look` is given, a negative lookahead `(?!look)` after it. -/
def wordHitAt (pat : List Char) (look : Option (List Char))
    (s : List Char) : Bool :=
  startsWithCI pat s &&
    (match s.drop pat.length with
     | [] => true
     | c :: _ => !isWordChar c) &&
    (match look with
     | none => true
     | some l => !startsWithCI l (s.drop pat.length))

/-- Scanning worker for `/\bpat\b/i` (optionally with a trailing negative
lookahead): `prev` is the character before the current position, used for
the opening word boundary. -/
def containsWordAux (pat : List Char) (look : Option (List Char)) :
    Option Char → List Char → Bool
  | _, [] => false
  | prev, c :: cs =>
    ((match prev with
      | none => true
      | some p => !isWordChar p) && wordHitAt pat look (c :: cs))
      || containsWordAux pat look (some c) cs

/-- `/\bpat\b/i.test(s)`. -/
def containsWord (pat : List Char) (s : List Char) : Bool :=
  containsWordAux pat none none s

/-- `/\bpat\b(?!look)/i.test(s)` (used by the `eth`/`sol` symbol patterns;
with the boundary already requiring a non-word follower the lookahead can
never fire, but it is embedded as written). -/
def containsWordNotFollowed (pat look : List Char) (s : List Char) : Bool :=
  containsWordAux pat (some look) none s

/-- After `a` has matched, does `\s*b` match here?  Tries zero spaces
first, then each longer run, exactly the set of alternatives the greedy
`\s*` explores. -/
def spacesThenLit (b : List Char) : List Char → Bool
  | [] => b.isEmpty
  | c :: cs => startsWithCI b (c :: cs) || (isSpaceChar c && spacesThenLit b cs)

/-- `/a\s*b/i.test(s)` for literals `a`, `b` (the `market\s*cap` and
`mega\s*eth` exclusion patterns). -/
def containsLitSpacesLit (a b : List Char) : List Char → Bool
  | [] => startsWithCI a [] && spacesThenLit b []
  | c :: cs =>
    (startsWithCI a (c :: cs) && spacesThenLit b ((c :: cs).drop a.length))
      || containsLitSpacesLit a b cs

/-- The parser's `exclusionPatterns` in source order.  `/\bfee[s]?\b/i` is
equivalent to the word `fees` or the word `fee` (the optional `[s]?` with
a following `\b` admits exactly those two). -/
def isExcluded (q : List Char) : Bool :=
  containsLitSpacesLit (lit "market") (lit "cap") q
    || containsWord (lit "fdv") q
    || containsWord (lit "tvl") q
    || containsWord (lit "mcap") q
    || containsCI (lit "dominance") q
    || (containsWord (lit "fees") q || containsWord (lit "fee") q)
    || containsWord (lit "gas") q
    || containsWord (lit "staking") q
    || containsWord (lit "airdrop") q
    || containsWord (lit "etf") q
    || containsWord (lit "halving") q
    || containsLitSpacesLit (lit "mega") (lit "eth") q
    || containsWord (lit "weth") q
    || containsWord (lit "steth") q
    || containsWord (lit "reth") q
    || containsWord (lit "cbeth") q

/-- The parser's ordered `cryptoPatterns` scan: the first pattern that
tests true wins. -/
def detectCrypto (q : List Char) : Option String :=
  if containsWord (lit "bitcoin") q || containsWord (lit "btc") q then
    some "BTC"
  else if containsWord (lit "ethereum") q ||
      containsWordNotFollowed (lit "eth") (lit "er") q then some "ETH"
  else if containsWord (lit "solana") q ||
      containsWordNotFollowed (lit "sol") (lit "ar") q then some "SOL"
  else if containsWord (lit "cardano") q || containsWord (lit "ada") q then
    some "ADA"
  else if containsWord (lit "dogecoin") q || containsWord (lit "doge") q then
    some "DOGE"
  else if containsWord (lit "xrp") q || containsWord (lit "ripple") q then
    some "XRP"
  else if containsWord (lit "polygon") q || containsWord (lit "matic") q then
    some "MATIC"
  else if containsWord (lit "avalanche") q || containsWord (lit "avax") q then
    some "AVAX"
  else if containsWord (lit "chainlink") q || containsWord (lit "link") q then
    some "LINK"
  else if containsWord (lit "polkadot") q || containsWord (lit "dot") q then
    some "DOT"
  else if containsWord (lit "litecoin") q || containsWord (lit "ltc") q then
    some "LTC"
  else none

/-- The `priceKeywords` test: word-bounded keywords plus a bare `$`. -/
def hasPriceKeyword (q : List Char) : Bool :=
  containsWord (lit "price") q || containsWord (lit "hit") q
    || containsWord (lit "reach") q || containsWord (lit "above") q
    || containsWord (lit "below") q || containsWord (lit "exceed") q
    || containsWord (lit "surpass") q || containsCI (lit "$") q
    || containsWord (lit "over") q || containsWord (lit "under") q
    || containsWord (lit "dip") q

/-- All splits (consumed, rest) of a prefix run of a character class,
longest first — the order in which a greedy regex quantifier explores
them. -/
def greedySplits (f : Char → Bool) : List Char → List (List Char × List Char)
  | [] => [([], [])]
  | c :: cs =>
    if f c then
      ((greedySplits f cs).map (fun pr => (c :: pr.1, pr.2))) ++ [([], c :: cs)]
    else [([], c :: cs)]

/-- The first alternative on which `f` succeeds (regex alternation
order). -/
def firstSome (f : α → Option β) : List α → Option β
  | [] => none
  | a :: as =>
    match f a with
    | some b => some b
    | none => firstSome f as

/-- Exactly `n` characters of class `f` (the regex `{n}` quantifier),
returning them and the rest. -/
def takeCount (f : Char → Bool) : ℕ → List Char → Option (List Char × List Char)
  | 0, s => some ([], s)
  | _ + 1, [] => none
  | n + 1, c :: cs =>
    if f c then (takeCount f n cs).map (fun pr => (c :: pr.1, pr.2)) else none

/-- Case-insensitive literal prefix: the matched original characters and
the rest. -/
def stripLitCI (pat s : List Char) : Option (List Char × List Char) :=
  if startsWithCI pat s then some (s.take pat.length, s.drop pat.length)
  else none

/-- Leftmost match: try the position matcher at every suffix, left to
right, as a JavaScript regex engine does. -/
def findFirstMap (f : List Char → Option α) : List Char → Option α
  | [] => f []
  | s@(_ :: cs) =>
    match f s with
    | some r => some r
    | none => findFirstMap f cs

/-- Shared body of the first two price patterns,
`\$?([\d,]+(?:\.\d+)?)\s*TERM`: returns `(match[0], match[1])`.  `pre` is
the already-consumed optional `$`; `term` checks the terminal (`k` or
`thousand`) and returns its matched characters. -/
def priceBodyAt (pre : List Char) (term : List Char → Option (List Char))
    (s : List Char) : Option (List Char × List Char) :=
  firstSome
    (fun run =>
      if run.1.isEmpty then none
      else
        let fracCands : List (List Char × List Char) :=
          (match run.2 with
           | '.' :: r2 =>
             (greedySplits Char.isDigit r2).filterMap (fun fr =>
               if fr.1.isEmpty then none else some ('.' :: fr.1, fr.2))
           | _ => []) ++ [([], run.2)]
        firstSome
          (fun frac =>
            firstSome
              (fun sp =>
                match term sp.2 with
                | some t =>
                  some (pre ++ run.1 ++ frac.1 ++ sp.1 ++ t,
                    run.1 ++ frac.1)
                | none => none)
              (greedySplits isSpaceChar frac.2))
          fracCands)
    (greedySplits (fun c => c.isDigit || c == ',') s)

/-- Price pattern 1, `/\$?([\d,]+(?:\.\d+)?)\s*k/i`: the greedy `\$?`
tries the `$`-consuming branch first. -/
def matchPriceKAt (s : List Char) : Option (List Char × List Char) :=
  let term : List Char → Option (List Char) := fun r =>
    match r with
    | c :: _ => if lcEq c 'k' then some [c] else none
    | [] => none
  match s with
  | '$' :: rest =>
    match priceBodyAt ['$'] term rest with
    | some r => some r
    | none => priceBodyAt [] term s
  | _ => priceBodyAt [] term s

/-- Price pattern 2, `/\$?([\d,]+(?:\.\d+)?)\s*(?:thousand)/i`. -/
def matchPriceThousandAt (s : List Char) : Option (List Char × List Char) :=
  let term : List Char → Option (List Char) := fun r =>
    (stripLitCI (lit "thousand") r).map (fun pr => pr.1)
  match s with
  | '$' :: rest =>
    match priceBodyAt ['$'] term rest with
    | some r => some r
    | none => priceBodyAt [] term s
  | _ => priceBodyAt [] term s

/-- Price pattern 3, `/\$([\d,]+(?:\.\d+)?)/`: a mandatory `$` and no
terminal. -/
def matchPriceDollarAt (s : List Char) : Option (List Char × List Char) :=
  match s with
  | '$' :: rest => priceBodyAt ['$'] (fun _ => some ([] : List Char)) rest
  | _ => none

/-- Price pattern 4, `/([\d,]+(?:\.\d+)?)\s*(?:dollars?|usd)/i`: the
alternation tries `dollars`, then `dollar`, then `usd`. -/
def matchPriceDollarsWordAt (s : List Char) : Option (List Char × List Char) :=
  let term : List Char → Option (List Char) := fun r =>
    firstSome (fun w => (stripLitCI w r).map (fun pr => pr.1))
      [lit "dollars", lit "dollar", lit "usd"]
  priceBodyAt [] term s

/-- The numeric value of a digit string. -/
def natValue (l : List Char) : ℕ :=
  l.foldl (fun a c => 10 * a + (c.toNat - 48)) 0

/-- JavaScript `parseFloat` on the comma-stripped price group (shape:
digits, optionally a dot and more digits).  `none` is `NaN` (empty or not
digit-leading). -/
def parseFloatQ (s : List Char) : Option ℚ :=
  match s with
  | [] => none
  | c :: _ =>
    if c.isDigit then
      let ip := s.takeWhile Char.isDigit
      let rest := s.dropWhile Char.isDigit
      match rest with
      | '.' :: r2 =>
        let fp := r2.takeWhile Char.isDigit
        some ((natValue ip : ℚ) + (natValue fp : ℚ) / 10 ^ fp.length)
      | _ => some (natValue ip : ℚ)
    else none

/-- The price-extraction loop over the four patterns in source order: on a
match, strip commas, `parseFloat`, multiply by 1000 when `match[0]`
contains `k` or `thousand`, accept the first strictly positive result and
otherwise fall through to the next pattern. -/
def priceLoop (q : List Char) :
    List (List Char → Option (List Char × List Char)) → Option ℚ
  | [] => none
  | pat :: rest =>
    match findFirstMap pat q with
    | none => priceLoop q rest
    | some (whole, group) =>
      let priceStr := group.filter (fun c => !(c == ','))
      match parseFloatQ priceStr with
      | none => priceLoop q rest
      | some p0 =>
        let price :=
          if containsCI (lit "k") whole || containsCI (lit "thousand") whole
          then p0 * 1000 else p0
        if price > 0 then some price else priceLoop q rest

/-- The parser's target-price extraction. -/
def extractTargetPrice (q : List Char) : Option ℚ :=
  priceLoop q [matchPriceKAt, matchPriceThousandAt, matchPriceDollarAt,
    matchPriceDollarsWordAt]

/-- `oneTouchKeywords = /hit|reach|touch|surpass|exceed|dip|drop|crash/i`
(no word boundaries in the source). -/
def hasOneTouchKeyword (q : List Char) : Bool :=
  containsCI (lit "hit") q || containsCI (lit "reach") q
    || containsCI (lit "touch") q || containsCI (lit "surpass") q
    || containsCI (lit "exceed") q || containsCI (lit "dip") q
    || containsCI (lit "drop") q || containsCI (lit "crash") q

/-- `belowKeywords =
/below|under|less than|fall|dip|drop|crash|sink|plunge|decline/i`. -/
def hasBelowKeyword (q : List Char) : Bool :=
  containsCI (lit "below") q || containsCI (lit "under") q
    || containsCI (lit "less than") q || containsCI (lit "fall") q
    || containsCI (lit "dip") q || containsCI (lit "drop") q
    || containsCI (lit "crash") q || containsCI (lit "sink") q
    || containsCI (lit "plunge") q || containsCI (lit "decline") q

/-- The value a `new Date(year, month, day, hours, minutes, seconds)`
construction carries: local wall-clock components with a 0-based month
(the parser only builds in-range components, so the constructor's
normalisation never fires). -/
structure JsDate where
  year : ℤ
  month : ℤ
  day : ℤ
  hour : ℕ
  minute : ℕ
  second : ℕ
deriving DecidableEq, Repr

/-- JavaScript `parseInt` on the digit-leading groups the date matchers
produce: the value of the maximal digit prefix.  (The `NaN` case — no
leading digit — never reaches a consumed value in the embedded handler,
mirroring the source, where such a group is always overwritten before
use.) -/
def parseIntJS (l : List Char) : ℤ := (natValue (l.takeWhile Char.isDigit) : ℤ)

/-- Lowercasing, `String.prototype.toLowerCase` on ASCII questions. -/
def toLowerList (l : List Char) : List Char := l.map Char.toLower

/-- The parser's `months` lookup table (keys must match exactly). -/
def monthIndex (m : List Char) : Option ℤ :=
  if m == lit "january" || m == lit "jan" then some 0
  else if m == lit "february" || m == lit "feb" then some 1
  else if m == lit "march" || m == lit "mar" then some 2
  else if m == lit "april" || m == lit "apr" then some 3
  else if m == lit "may" then some 4
  else if m == lit "june" || m == lit "jun" then some 5
  else if m == lit "july" || m == lit "jul" then some 6
  else if m == lit "august" || m == lit "aug" then some 7
  else if m == lit "september" || m == lit "sep" || m == lit "sept" then some 8
  else if m == lit "october" || m == lit "oct" then some 9
  else if m == lit "november" || m == lit "nov" then some 10
  else if m == lit "december" || m == lit "dec" then some 11
  else none

/-- Date pattern 1, `/(\w+)\s+(\d{1,2})(?:st|nd|rd|th)?,?\s*(\d{4})/i`,
matched at one position with the greedy quantifiers' backtracking order;
returns the three capture groups. -/
def matchMonthDayYearAt (s : List Char) :
    Option (List Char × List Char × List Char) :=
  firstSome
    (fun w =>
      if w.1.isEmpty then none
      else
        firstSome
          (fun sp =>
            if sp.1.isEmpty then none
            else
              firstSome
                (fun n => do
                  let (day, r1) ← takeCount Char.isDigit n sp.2
                  firstSome
                    (fun suf => do
                      let (_, r2) ← stripLitCI suf r1
                      firstSome
                        (fun com => do
                          let (_, r3) ← stripLitCI com r2
                          firstSome
                            (fun sp2 => do
                              let (year, _) ←
                                takeCount Char.isDigit 4 sp2.2
                              pure (w.1, day, year))
                            (greedySplits isSpaceChar r3))
                        [[','], []])
                    [lit "st", lit "nd", lit "rd", lit "th", []])
                [2, 1])
          (greedySplits isSpaceChar w.2))
    (greedySplits isWordChar s)

/-- Date pattern 2, `/(\d{1,2})(?:st|nd|rd|th)?\s+(\w+),?\s*(\d{4})/i`. -/
def matchDayMonthYearAt (s : List Char) :
    Option (List Char × List Char × List Char) :=
  firstSome
    (fun n => do
      let (day, r1) ← takeCount Char.isDigit n s
      firstSome
        (fun suf => do
          let (_, r2) ← stripLitCI suf r1
          firstSome
            (fun sp =>
              if sp.1.isEmpty then none
              else
                firstSome
                  (fun w =>
                    if w.1.isEmpty then none
                    else
                      firstSome
                        (fun com => do
                          let (_, r3) ← stripLitCI com w.2
                          firstSome
                            (fun sp2 => do
                              let (year, _) ←
                                takeCount Char.isDigit 4 sp2.2
                              pure (day, w.1, year))
                            (greedySplits isSpaceChar r3))
                        [[','], []])
                  (greedySplits isWordChar sp.2))
            (greedySplits isSpaceChar r2))
        [lit "st", lit "nd", lit "rd", lit "th", []])
    [2, 1]

/-- Date pattern 3, `/(\d{1,2})\/(\d{1,2})\/(\d{4})/`. -/
def matchSlashDateAt (s : List Char) :
    Option (List Char × List Char × List Char) :=
  firstSome
    (fun n => do
      let (mm, r1) ← takeCount Char.isDigit n s
      match r1 with
      | '/' :: r2 =>
        firstSome
          (fun n2 => do
            let (dd, r3) ← takeCount Char.isDigit n2 r2
            match r3 with
            | '/' :: r4 => do
              let (year, _) ← takeCount Char.isDigit 4 r4
              pure (mm, dd, year)
            | _ => none)
          [2, 1]
      | _ => none)
    [2, 1]

/-- Date pattern 4, `/by\s+(?:end\s+of\s+)?(\d{4})/i`: returns
`(match[0], match[1])`; the greedy optional group tries the
`end of`-consuming branch first. -/
def matchByYearAt (s : List Char) : Option (List Char × List Char) := do
  let (byc, r1) ← stripLitCI (lit "by") s
  firstSome
    (fun sp =>
      if sp.1.isEmpty then none
      else
        let withEnd : Option (List Char × List Char) := do
          let (e1, r2) ← stripLitCI (lit "end") sp.2
          firstSome
            (fun sp2 =>
              if sp2.1.isEmpty then none
              else do
                let (o1, r3) ← stripLitCI (lit "of") sp2.2
                firstSome
                  (fun sp3 =>
                    if sp3.1.isEmpty then none
                    else do
                      let (year, _) ← takeCount Char.isDigit 4 sp3.2
                      pure (byc ++ sp.1 ++ e1 ++ sp2.1 ++ o1 ++ sp3.1 ++ year,
                        year))
                  (greedySplits isSpaceChar r3))
            (greedySplits isSpaceChar r2)
        match withEnd with
        | some r => some r
        | none => do
          let (year, _) ← takeCount Char.isDigit 4 sp.2
          pure (byc ++ sp.1 ++ year, year))
    (greedySplits isSpaceChar r1)

/-- Date pattern 5, `/before\s+(\d{4})/i`. -/
def matchBeforeYearAt (s : List Char) : Option (List Char × List Char) := do
  let (bc, r1) ← stripLitCI (lit "before") s
  firstSome
    (fun sp =>
      if sp.1.isEmpty then none
      else do
        let (year, _) ← takeCount Char.isDigit 4 sp.2
        pure (bc ++ sp.1 ++ year, year))
    (greedySplits isSpaceChar r1)

/-- Date pattern 6, `/in\s+(\d{4})/i`. -/
def matchInYearAt (s : List Char) : Option (List Char × List Char) := do
  let (ic, r1) ← stripLitCI (lit "in") s
  firstSome
    (fun sp =>
      if sp.1.isEmpty then none
      else do
        let (year, _) ← takeCount Char.isDigit 4 sp.2
        pure (ic ++ sp.1 ++ year, year))
    (greedySplits isSpaceChar r1)

/-- The year fallback `question.match(/20\d{2}/)`. -/
def matchYear20At (s : List Char) : Option (List Char) :=
  match s with
  | '2' :: '0' :: c :: d :: _ =>
    if c.isDigit && d.isDigit then some ['2', '0', c, d] else none
  | _ => none

/-- Does the group start with a digit (`/^\d/`)? -/
def startsWithDigit (l : List Char) : Bool :=
  match l with
  | c :: _ => c.isDigit
  | [] => false

/-- The shared handler for the three-group date patterns: `MM/DD/YYYY`
when the first two groups are digit-leading, otherwise month-name lookup
with the source's day/month swap when `match[1]` is all digits; an unknown
month name falls through to the next pattern (`none`). -/
def handleThreeGroups (m1 m2 m3 : List Char) : Option JsDate :=
  if startsWithDigit m1 && startsWithDigit m2 then
    some
      { year := parseIntJS m3, month := parseIntJS m1 - 1,
        day := parseIntJS m2, hour := 23, minute := 59, second := 59 }
  else
    let monthStr := toLowerList m1
    let day := parseIntJS m2
    let year := parseIntJS m3
    let dm :=
      if !m1.isEmpty && m1.all Char.isDigit then (parseIntJS m1, toLowerList m2)
      else (day, monthStr)
    match monthIndex dm.2 with
    | some month =>
      some
        { year := year, month := month, day := dm.1, hour := 23,
          minute := 59, second := 59 }
    | none => none

/-- The year-only construction
`new Date(effectiveYear, 11, 31, 23, 59, 59)` with
`effectiveYear = year - 1` when `match[0]` contains `before`. -/
def yearOnlyDate (whole year : List Char) : JsDate :=
  let y := parseIntJS year
  let effectiveYear := if containsCI (lit "before") whole then y - 1 else y
  { year := effectiveYear, month := 11, day := 31, hour := 23, minute := 59,
    second := 59 }

/-- Embeds `parseDateFromQuestion`: the six date patterns in order (a
matched pattern whose month lookup fails falls through), then the bare
`20\d{2}` year fallback. -/
def parseDateFromQuestion (q : List Char) : Option JsDate :=
  ((findFirstMap matchMonthDayYearAt q).bind fun g =>
      handleThreeGroups g.1 g.2.1 g.2.2) <|>
    ((findFirstMap matchDayMonthYearAt q).bind fun g =>
      handleThreeGroups g.1 g.2.1 g.2.2) <|>
    ((findFirstMap matchSlashDateAt q).bind fun g =>
      handleThreeGroups g.1 g.2.1 g.2.2) <|>
    ((findFirstMap matchByYearAt q).map fun g => yearOnlyDate g.1 g.2) <|>
    ((findFirstMap matchBeforeYearAt q).map fun g => yearOnlyDate g.1 g.2) <|>
    ((findFirstMap matchInYearAt q).map fun g => yearOnlyDate g.1 g.2) <|>
    ((findFirstMap matchYear20At q).map fun y => yearOnlyDate [] y)

/-- The parser's result record. -/
structure ParsedClaim where
  crypto : String
  targetPrice : ℚ
  expiryDate : Option JsDate
  betType : BetType
  direction : Direction
deriving DecidableEq, Repr

/-- Embeds `parseCryptoMarketQuestion`: exclusion patterns, symbol
detection, price-intent keywords, target-price extraction (strictly
positive required), bet type and direction keywords, and the date parse.
The source's lowercased copy `q` of the question is computed but never
read; all tests run case-insensitively on the original text. -/
def parseCryptoMarketQuestion (question : String) : Option ParsedClaim :=
  let q := question.toList
  if isExcluded q then none
  else
    match detectCrypto q with
    | none => none
    | some crypto =>
      if !hasPriceKeyword q then none
      else
        match extractTargetPrice q with
        | none => none
        | some targetPrice =>
          let betType := if hasOneTouchKeyword q then BetType.oneTouch
            else BetType.binary
          let direction := if hasBelowKeyword q then Direction.below
            else Direction.above
          some
            { crypto := crypto, targetPrice := targetPrice,
              expiryDate := parseDateFromQuestion q, betType := betType,
              direction := direction }

/-- Whether a year is a Gregorian leap year. -/
def isLeapYear (y : ℤ) : Bool := (y % 4 == 0 && y % 100 != 0) || y % 400 == 0

/-- Day count of a year. -/
def daysInYear (y : ℤ) : ℕ := if isLeapYear y then 366 else 365

/-- Month lengths, 1-based access via `take`. -/
def monthLengths (leap : Bool) : List ℕ :=
  [31, if leap then 29 else 28, 31, 30, 31, 30, 31, 31, 30, 31, 30, 31]

/-- Days from 1970-01-01 to the given civil date (1-based month), for
years from 1970 on — the only range the stated dates use. -/
def daysFromCivil1970 (y : ℤ) (m1 d : ℕ) : ℤ :=
  (((List.range (y - 1970).toNat).foldl
      (fun acc i => acc + daysInYear (1970 + i)) 0 : ℕ) : ℤ)
    + (((monthLengths (isLeapYear y)).take (m1 - 1)).sum : ℤ) + d - 1

/-- The epoch instant, in seconds, of a `JsDate` built by
`new Date(year, month, day, h, m, s)` in a process whose local timezone
lies `tzOffsetMinutes` east of UTC: JavaScript reads the components as
local wall-clock time, so the instant shifts with the process timezone. -/
def epochSeconds (date : JsDate) (tzOffsetMinutes : ℤ) : ℤ :=
  daysFromCivil1970 date.year (date.month.toNat + 1) date.day.toNat * 86400
    + date.hour * 3600 + date.minute * 60 + date.second - tzOffsetMinutes * 60

end Parser

namespace PaperBot

theorem getTotalExposure_eq_sum (l : List Position) :
    getTotalExposure l = (l.map Position.size).sum := by
  suffices h : ∀ init : ℚ, l.foldl (fun sum p => sum + p.size) init =
      init + (l.map Position.size).sum by
    simpa using h 0
  induction l with
  | nil => intro init; simp
  | cons a t ih =>
    intro init
    simp [List.foldl, ih, add_assoc]

theorem getTotalExposure_append (l₁ l₂ : List Position) :
    getTotalExposure (l₁ ++ l₂) = getTotalExposure l₁ + getTotalExposure l₂ := by
  simp [getTotalExposure_eq_sum]

theorem getTotalExposure_filter_le (l : List Position) (q : Position → Bool)
    (h : ∀ p ∈ l, 0 ≤ p.size) :
    getTotalExposure (l.filter q) ≤ getTotalExposure l := by
  induction l with
  | nil => simp
  | cons a t ih =>
    have ha : 0 ≤ a.size := h a (by simp)
    have ht : ∀ p ∈ t, 0 ≤ p.size := fun p hp => h p (by simp [hp])
    by_cases hq : q a
    · simp [List.filter_cons, hq, getTotalExposure_eq_sum] at ih ⊢
      exact ih ht
    · simp [List.filter_cons, hq, getTotalExposure_eq_sum] at ih ⊢
      have := ih ht
      linarith

theorem getTotalExposure_filter_ne_id (l : List Position) (p : Position)
    (hmem : p ∈ l) (hnd : (l.map Position.id).Nodup) :
    getTotalExposure (l.filter (fun q => !(q.id == p.id))) =
      getTotalExposure l - p.size := by
  induction l with
  | nil => simp at hmem
  | cons a t ih =>
    simp only [List.map_cons, List.nodup_cons] at hnd
    by_cases hid : a.id = p.id
    · have hpt : p ∉ t := by
        intro hp
        exact hnd.1 (hid ▸ (List.mem_map.mpr ⟨p, hp, rfl⟩))
      have hpa : p = a := by
        rcases List.mem_cons.mp hmem with h | h
        · exact h
        · exact absurd h hpt
      have hall : List.filter (fun q => !(q.id == p.id)) t = t := by
        refine List.filter_eq_self.mpr ?_
        intro q hq
        have : q.id ≠ p.id := by
          intro hqe
          exact hnd.1 (hid ▸ hqe ▸ (List.mem_map.mpr ⟨q, hq, rfl⟩))
        simpa using this
      have hfa : (!(a.id == p.id)) = false := by simpa using hid
      rw [List.filter_cons, hfa, if_neg (by simp), hall, hpa]
      simp [getTotalExposure_eq_sum]
    · have hpt : p ∈ t := by
        rcases List.mem_cons.mp hmem with h | h
        · exact absurd (congrArg Position.id h.symm) hid
        · exact h
      have hrec := ih hpt hnd.2
      have hfa : (!(a.id == p.id)) = true := by simpa using hid
      rw [List.filter_cons, hfa, if_pos rfl]
      simp [getTotalExposure_eq_sum] at hrec ⊢
      linarith

theorem openPosition_snd_openPositions (opp : Opportunity) (side : Side)
    (edge : ℚ) (state : BotState) (config : BotConfig) (posId : String) :
    (openPosition opp side edge state config posId).2.openPositions =
      state.openPositions := rfl

theorem reachable_nodup_and_balance {config : BotConfig} {s : BotState}
    (h : Reachable config s) :
    (s.openPositions.map Position.id).Nodup ∧
      s.currentBalance + getTotalExposure s.openPositions =
        s.startingBalance + s.totalPnl := by
  induction h with
  | init => simp [initialState, getTotalExposure]
  | openStep s hs opp side edge posId hfresh ih =>
    constructor
    · simp only [openPosition, List.map_append]
      refine List.Nodup.append ih.1 (by simp) ?_
      intro x hx hy
      simp only [List.map_cons, List.map_nil, List.mem_singleton] at hy
      subst hy
      rcases List.mem_map.mp hx with ⟨q, hq, hq2⟩
      exact hfresh q hq hq2
    · have hbal := ih.2
      simp only [openPosition, getTotalExposure_append]
      simp only [getTotalExposure_eq_sum] at hbal ⊢
      simp [openPosition]
      linarith
  | closeStep s hs p hp currentPrice currentEdge reason ih =>
    constructor
    · simp only [closePosition]
      exact ih.1.sublist ((List.filter_sublist _).map Position.id)
    · have hbal := ih.2
      have hfil := getTotalExposure_filter_ne_id _ _ hp ih.1
      simp only [closePosition, hfil]
      linarith

/-- C1.  Paper-bot accounting invariant: in every state reachable from the
initial state by position opens (which debit the balance by the position's
size) and position closes (which credit the balance by size plus realized
pnl), `currentBalance + Σ size(openPositions) = startingBalance + totalPnl`. -/
theorem reachable_balance_invariant (config : BotConfig) (s : BotState)
    (h : Reachable config s) :
    s.currentBalance + getTotalExposure s.openPositions =
      s.startingBalance + s.totalPnl :=
  (reachable_nodup_and_balance h).2

/-- Witness for C1: the invariant instantiated at the initial state of the
source's `CONFIG`. -/
theorem reachable_balance_invariant_witness :
    Reachable CONFIG (initialState CONFIG) ∧
      (initialState CONFIG).currentBalance +
          getTotalExposure (initialState CONFIG).openPositions =
        (initialState CONFIG).startingBalance + (initialState CONFIG).totalPnl :=
  ⟨Reachable.init, reachable_balance_invariant CONFIG _ Reachable.init⟩

end PaperBot

namespace PaperBot

theorem updatePosition_size (opps : List Opportunity) (p : Position) :
    (updatePosition opps p).size = p.size := by
  unfold updatePosition
  cases opps.find? (fun o => o.market.id == p.marketId) <;> rfl

theorem updateOpenPositions_exposure (opps : List Opportunity) (st : BotState) :
    getTotalExposure (updateOpenPositions opps st).openPositions =
      getTotalExposure st.openPositions := by
  simp only [updateOpenPositions, getTotalExposure_eq_sum, List.map_map]
  congr 1
  exact List.map_congr_left fun p _ => updatePosition_size opps p

theorem closePosition_exposure (p : Position) (cp ce : ℚ) (r : String)
    (st : BotState) (hnn : ∀ q ∈ st.openPositions, 0 ≤ q.size) :
    getTotalExposure (closePosition p cp ce r st).openPositions ≤
        getTotalExposure st.openPositions ∧
      ∀ q ∈ (closePosition p cp ce r st).openPositions, 0 ≤ q.size := by
  constructor
  · exact getTotalExposure_filter_le _ _ hnn
  · intro q hq
    simp only [closePosition, List.mem_filter] at hq
    exact hnn q hq.1

theorem exits_fold_preserves (config : BotConfig) (now : ℚ)
    (opps : List Opportunity) (B : ℚ) :
    ∀ (snapshot : List Position) (st : BotState),
      (∀ p ∈ st.openPositions, 0 ≤ p.size) →
      getTotalExposure st.openPositions ≤ B →
      (∀ p ∈ (snapshot.foldl
          (fun st position =>
            let opp := opps.find? (fun o => o.market.id == position.marketId)
            let check := shouldExitPosition position opp config now
            if check.shouldExit then
              closePosition position check.currentPrice check.currentEdge
                check.reason st
            else st)
          st).openPositions, 0 ≤ p.size) ∧
        getTotalExposure ((snapshot.foldl
          (fun st position =>
            let opp := opps.find? (fun o => o.market.id == position.marketId)
            let check := shouldExitPosition position opp config now
            if check.shouldExit then
              closePosition position check.currentPrice check.currentEdge
                check.reason st
            else st)
          st).openPositions) ≤ B := by
  intro snapshot
  induction snapshot with
  | nil => intro st hnn hcap; exact ⟨hnn, hcap⟩
  | cons a t ih =>
    intro st hnn hcap
    simp only [List.foldl_cons]
    by_cases hexit : (shouldExitPosition a
        (opps.find? (fun o => o.market.id == a.marketId)) config now).shouldExit
    · have hc := closePosition_exposure a
        (shouldExitPosition a
          (opps.find? (fun o => o.market.id == a.marketId)) config now).currentPrice
        (shouldExitPosition a
          (opps.find? (fun o => o.market.id == a.marketId)) config now).currentEdge
        (shouldExitPosition a
          (opps.find? (fun o => o.market.id == a.marketId)) config now).reason
        st hnn
      simp only [hexit, if_true]
      exact ih _ hc.2 (le_trans hc.1 hcap)
    · simp only [hexit, if_false]
      exact ih st hnn hcap

theorem runExits_preserves (config : BotConfig) (now : ℚ)
    (opps : List Opportunity) (B : ℚ) (st : BotState)
    (hnn : ∀ p ∈ st.openPositions, 0 ≤ p.size)
    (hcap : getTotalExposure st.openPositions ≤ B) :
    (∀ p ∈ (runExits config now opps st).openPositions, 0 ≤ p.size) ∧
      getTotalExposure (runExits config now opps st).openPositions ≤ B :=
  exits_fold_preserves config now opps B st.openPositions st hnn hcap

theorem shouldEnterPosition_edge (opp : Opportunity) (st : BotState)
    (config : BotConfig) (now : ℚ) :
    (shouldEnterPosition opp st config now).edge =
      opp.edgeVsDeribit.getD opp.edgeVsZscore := by
  simp only [shouldEnterPosition]
  split_ifs <;> rfl

theorem shouldEnterPosition_exposure (opp : Opportunity) (st : BotState)
    (config : BotConfig) (now : ℚ)
    (h : (shouldEnterPosition opp st config now).shouldEnter = true) :
    getTotalExposure st.openPositions +
        calculatePositionSize ((shouldEnterPosition opp st config now).edge)
          config ≤ config.maxTotalExposure := by
  rw [shouldEnterPosition_edge]
  simp only [shouldEnterPosition] at h
  split_ifs at h with h1 h2 h3 h4 h5 h6 <;> linarith [not_lt.mp h4]

theorem entries_fold_cap (config : BotConfig) (now : ℚ) (genId : ℕ → String)
    (opps : List Opportunity) :
    ∀ (st : BotState) (k : ℕ),
      getTotalExposure st.openPositions ≤ config.maxTotalExposure →
      getTotalExposure ((opps.foldl
        (fun (acc : BotState × ℕ) opp =>
          let check := shouldEnterPosition opp acc.1 config now
          if check.shouldEnter then
            let opened := openPosition opp check.side check.edge acc.1 config
              (genId acc.2)
            ({ opened.2 with
                openPositions := opened.2.openPositions ++ [opened.1] },
              acc.2 + 1)
          else (acc.1, acc.2))
        (st, k)).1).openPositions ≤ config.maxTotalExposure := by
  induction opps with
  | nil => intro st k hcap; exact hcap
  | cons o rest ih =>
    intro st k hcap
    simp only [List.foldl_cons]
    by_cases henter : (shouldEnterPosition o st config now).shouldEnter
    · have hexp := shouldEnterPosition_exposure o st config now henter
      simp only [henter, if_true]
      refine ih _ _ ?_
      simp only [openPosition_snd_openPositions, getTotalExposure_append]
      have hsize : (openPosition o (shouldEnterPosition o st config now).side
          (shouldEnterPosition o st config now).edge st config
          (genId k)).1.size =
          calculatePositionSize ((shouldEnterPosition o st config now).edge)
            config := rfl
      simp only [getTotalExposure_eq_sum] at hexp ⊢
      simp only [List.map_cons, List.map_nil, List.sum_cons, List.sum_nil]
      rw [hsize] at *
      linarith
    · simp only [henter, if_false]
      exact ih st k hcap

/-- C2.  Exposure-cap preservation: from any well-formed state (open
position sizes non-negative) whose total open exposure is at most
`maxTotalExposure`, one full cycle (refresh, exits, gated entries) leaves
the total open exposure at most `maxTotalExposure`. -/
theorem runBotCycle_exposure_cap (config : BotConfig) (now : ℚ)
    (genId : ℕ → String) (opps : List Opportunity) (s : BotState)
    (hnn : ∀ p ∈ s.openPositions, 0 ≤ p.size)
    (hcap : getTotalExposure s.openPositions ≤ config.maxTotalExposure) :
    getTotalExposure (runBotCycle config now genId opps s).openPositions ≤
      config.maxTotalExposure := by
  unfold runBotCycle
  by_cases hempty : opps.isEmpty
  · simpa [hempty] using hcap
  · simp only [hempty, if_false]
    have hupd1 : ∀ p ∈ (updateOpenPositions opps s).openPositions, 0 ≤ p.size := by
      intro p hp
      simp only [updateOpenPositions, List.mem_map] at hp
      obtain ⟨q, hq, rfl⟩ := hp
      rw [updatePosition_size]
      exact hnn q hq
    have hupd2 : getTotalExposure (updateOpenPositions opps s).openPositions ≤
        config.maxTotalExposure := by
      rw [updateOpenPositions_exposure]; exact hcap
    have hex := runExits_preserves config now opps config.maxTotalExposure _
      hupd1 hupd2
    exact entries_fold_cap config now genId opps _ 0 hex.2

/-- Witness for C2: the cap theorem applied at the initial state with the
source's `CONFIG` and an empty opportunity list. -/
theorem runBotCycle_exposure_cap_witness :
    (∀ p ∈ (initialState CONFIG).openPositions, 0 ≤ p.size) ∧
      getTotalExposure (initialState CONFIG).openPositions ≤
        CONFIG.maxTotalExposure ∧
      getTotalExposure
          (runBotCycle CONFIG 0 (fun n => toString n) []
            (initialState CONFIG)).openPositions ≤
        CONFIG.maxTotalExposure := by
  have h1 : ∀ p ∈ (initialState CONFIG).openPositions, 0 ≤ p.size := by
    intro p hp; simp [initialState] at hp
  have h2 : getTotalExposure (initialState CONFIG).openPositions ≤
      CONFIG.maxTotalExposure := by
    norm_num [initialState, getTotalExposure, CONFIG]
  exact ⟨h1, h2, runBotCycle_exposure_cap CONFIG 0 (fun n => toString n) []
    (initialState CONFIG) h1 h2⟩

/-- C5.  Close-time profit and loss: closing (at price `cp`, in any state)
a position opened by `openPosition` at entry price `p₀ = polymarketProb`
appends a closed record whose `shares` equal `notional / p₀` for a long
position (`notional / (1 - p₀)` for a short one, as set at open time) and
whose `realizedPnl` is `shares * (cp - p₀)` for long and
`shares * (p₀ - cp)` for short. -/
theorem openPosition_closePosition_realizedPnl (opp : Opportunity)
    (side : Side) (edge : ℚ) (st : BotState) (config : BotConfig)
    (posId : String) (cp ce : ℚ) (reason : String) (st' : BotState) :
    ∃ closedRec : Position,
      (closePosition (openPosition opp side edge st config posId).1 cp ce
          reason st').closedPositions = st'.closedPositions ++ [closedRec] ∧
      closedRec.shares =
        (openPosition opp side edge st config posId).1.size /
          (if side = Side.long then opp.polymarketProb
            else 1 - opp.polymarketProb) ∧
      closedRec.realizedPnl = some (if side = Side.long
        then closedRec.shares * (cp - opp.polymarketProb)
        else closedRec.shares * (opp.polymarketProb - cp)) := by
  refine ⟨_, rfl, ?_, ?_⟩
  · cases side <;> simp [openPosition, closePosition]
  · cases side <;> simp [openPosition, closePosition]

end PaperBot

namespace RealBot

set_option maxHeartbeats 1600000 in
/-- C4 (amended).  The live bot's resolved-market guard fires exactly when
the market price is strictly above 0.99 or strictly below 0.01, i.e.
outside the closed interval [0.01, 0.99]; in particular every opportunity
with `polymarketProb` strictly inside (0.01, 0.99) — and also one exactly
at a boundary — passes the guard. -/
theorem resolvedGuard_rejects_iff (opp : PaperBot.Opportunity)
    (state : RealBotState) (config : RealBotConfig) (now : ℚ) :
    rejectedByResolvedGuard (realShouldEnterPosition opp state config now) ↔
      (99/100 < opp.polymarketProb ∨ opp.polymarketProb < 1/100) := by
  simp only [realShouldEnterPosition, rejectedByResolvedGuard]
  split_ifs with h1 h2 h3 h4 h5 h6 h7 h8 h9
  · exact iff_of_true (Or.inl rfl) (Or.inl h1)
  · exact iff_of_true (Or.inr rfl) (Or.inr h2)
  all_goals exact iff_of_false (by simp) (not_or.mpr ⟨h1, h2⟩)

unseal Rat.add Rat.mul Rat.inv Rat.sub Rat.ofScientific in
/-- Counterexample to C4 as stated: at the boundary price 0.99 — which
lies outside the open interval (0.01, 0.99) — the guard does not reject,
so "rejects exactly when `polymarketProb` is outside (0.01, 0.99)" is
false. -/
theorem resolvedGuard_open_interval_counterexample :
    ¬ (rejectedByResolvedGuard
        (realShouldEnterPosition oppBoundary emptyRealState REAL_CONFIG 0) ↔
      (oppBoundary.polymarketProb ≤ 1/100 ∨
        99/100 ≤ oppBoundary.polymarketProb)) := by
  simp only [rejectedByResolvedGuard]
  decide

end RealBot

namespace Persist

/-- Counterexample to C3 as stated: the persistence trace of a fresh save
(state directory absent) contains no rename at all, so it cannot write a
temporary file and rename it over the target. -/
theorem saveState_no_temp_rename_counterexample :
    ¬ usesTempThenRename
        (saveStateOps "data/bot-state.json" false "serialized-state")
        "data/bot-state.json" := by
  rintro ⟨tmp, contents, hne, hw, hr⟩
  simp [saveStateOps, dirname] at hr

/-- C3 (amended).  `saveState` writes the serialized state directly to the
state file with a single whole-file write; its trace contains no temporary
file and no rename (so a concurrent reader is not protected against
observing a partially written file), and the data directory is created
exactly when it does not already exist. -/
theorem saveState_direct_write (stateFile serialized : String)
    (dirExists : Bool) :
    FsOp.writeFile stateFile serialized ∈
        saveStateOps stateFile dirExists serialized ∧
      (∀ src dest,
        FsOp.rename src dest ∉ saveStateOps stateFile dirExists serialized) ∧
      (FsOp.mkdirRecursive (dirname stateFile) ∈
          saveStateOps stateFile dirExists serialized ↔ dirExists = false) := by
  cases dirExists <;> simp [saveStateOps]

end Persist

namespace Route

/-- C7.  The options-delta estimate is attached to an opportunity exactly
when its computed probability `P` lies strictly inside `(0, 1)`; when `P`
is `0`, `1`, or outside `[0, 1]`, `deribitProb` stays `none` (the
opportunity carries only the z-score estimate), and an attached estimate
carries exactly `P`. -/
theorem routeDeribitEstimate_strict_gate (bt : PaperBot.BetType)
    (dir : PaperBot.Direction) (currentPrice effectiveTarget strikeIv
    timeYears : ℝ) :
    ((routeDeribitEstimate bt dir currentPrice effectiveTarget strikeIv
          timeYears).isSome ↔
        (0 < routeDeribitProbability bt dir currentPrice effectiveTarget
            strikeIv timeYears ∧
          routeDeribitProbability bt dir currentPrice effectiveTarget
            strikeIv timeYears < 1)) ∧
      (routeDeribitEstimate bt dir currentPrice effectiveTarget strikeIv
          timeYears).map (fun e => e.probability) =
        (if 0 < routeDeribitProbability bt dir currentPrice effectiveTarget
              strikeIv timeYears ∧
            routeDeribitProbability bt dir currentPrice effectiveTarget
              strikeIv timeYears < 1
          then some (routeDeribitProbability bt dir currentPrice
            effectiveTarget strikeIv timeYears)
          else none) := by
  unfold routeDeribitEstimate
  split_ifs with h <;> simp [h]

/-- C8.  For positive spot `S`, target `K`, volatility and time, the
one-touch probability the engine computes is `min(1, 2q)` with
`q = 1 - Phi(z)` when `K > S` and `q = Phi(z)` otherwise, where
`z = ln(K/S) / (sigma sqrt T)`; and the route's delta-based method applies
the same `min(1, 2 * baseDelta)` rule whatever implied volatility is
supplied for sigma. -/
theorem oneTouch_min_one_two_q (S K σ T : ℝ) (hS : 0 < S) (hK : 0 < K)
    (hσ : 0 < σ) (hT : 0 < T) :
    (CryptoMath.calculateOneTouchProbability S K σ T).probability =
        min 1 (2 * (if S < K
          then 1 - CryptoMath.normalCDF (Real.log (K / S) / (σ * Real.sqrt T))
          else CryptoMath.normalCDF (Real.log (K / S) / (σ * Real.sqrt T)))) ∧
      ∀ (dir : PaperBot.Direction) (iv : ℝ),
        routeDeribitProbability .oneTouch dir S K iv T =
          min 1 (2 * (if S < K
            then CryptoMath.calculateCallDelta S K iv T
            else 1 - CryptoMath.calculateCallDelta S K iv T)) := by
  have hz : CryptoMath.calculateZScore S K σ T =
      Real.log (K / S) / (σ * Real.sqrt T) := by
    unfold CryptoMath.calculateZScore
    rw [if_neg (by push_neg; exact ⟨hS, hK, hσ, hT⟩)]
  constructor
  · simp only [CryptoMath.calculateOneTouchProbability, hz]
  · intro dir iv
    simp only [routeDeribitProbability]
    by_cases h : S < K <;> simp [h, gt_iff_lt]

/-- Witness for C8 at `S = 1`, `K = 2`, `σ = 1`, `T = 1`. -/
theorem oneTouch_min_one_two_q_witness :
    (0 : ℝ) < 1 ∧ (0 : ℝ) < 2 ∧
      (CryptoMath.calculateOneTouchProbability 1 2 1 1).probability =
        min 1 (2 * (if (1 : ℝ) < 2
          then 1 - CryptoMath.normalCDF (Real.log ((2 : ℝ) / 1) /
            (1 * Real.sqrt 1))
          else CryptoMath.normalCDF (Real.log ((2 : ℝ) / 1) /
            (1 * Real.sqrt 1)))) :=
  ⟨by norm_num, by norm_num,
    (oneTouch_min_one_two_q 1 2 1 1 (by norm_num) (by norm_num) (by norm_num)
      (by norm_num)).1⟩

/-- C10.  For one-touch markets the model probabilities the route computes
are independent of the claim's parsed `direction`: flipping `above` to
`below` changes neither the z-score one-touch estimate nor the delta-based
estimate (the binary-branch direction flip is never applied in the
one-touch branch; the probability depends only on whether the target is
above or below spot). -/
theorem oneTouch_direction_independent (currentPrice effectiveTarget
    volatility strikeIv timeYears : ℝ) :
    routeZscoreProb .oneTouch .above currentPrice effectiveTarget volatility
          timeYears =
        routeZscoreProb .oneTouch .below currentPrice effectiveTarget
          volatility timeYears ∧
      routeDeribitEstimate .oneTouch .above currentPrice effectiveTarget
          strikeIv timeYears =
        routeDeribitEstimate .oneTouch .below currentPrice effectiveTarget
          strikeIv timeYears := by
  constructor
  · rfl
  · unfold routeDeribitEstimate routeDeribitProbability
    simp

unseal List.mergeSort List.merge Rat.add Rat.mul Rat.inv Rat.sub in
/-- Counterexample to C6 as stated: on the two-element list
`[oppSmallDelta, oppMidDelta]` the code's sort puts `oppMidDelta` first
(its `|edgeVsDeribit|` is larger), but the claimed ranking key
`max(|edgeDelta|, |edgeZ|)` of `oppSmallDelta` is larger, so the output is
not sorted by the claimed key. -/
theorem sortOpportunities_spec_counterexample :
    ¬ List.Sorted specOrdered (sortOpportunities [oppSmallDelta, oppMidDelta]) := by
  decide

/-- C6 (amended).  The opportunity list is sorted in descending order of
the single key `|edgeVsDeribit ?? edgeVsZscore|` (i.e. `|edgeDelta|` when
the delta edge is present, else `|edgeZ|`); the output is a permutation of
the input, and opportunities with equal keys keep their input order
(stable sort) — there is no volume or expiry tie-break. -/
theorem sortOpportunities_sorted (l : List PipelineOpp) :
    List.Sorted (fun a b => sortEdgeKey b ≤ sortEdgeKey a)
        (sortOpportunities l) ∧
      (sortOpportunities l).Perm l ∧
      ∀ a b : PipelineOpp, [a, b].Sublist l → sortEdgeKey a = sortEdgeKey b →
        [a, b].Sublist (sortOpportunities l) := by
  have htrans : ∀ x y z : PipelineOpp,
      (decide (sortEdgeKey y ≤ sortEdgeKey x)) = true →
      (decide (sortEdgeKey z ≤ sortEdgeKey y)) = true →
      (decide (sortEdgeKey z ≤ sortEdgeKey x)) = true := by
    intro x y z hxy hyz
    simp only [decide_eq_true_eq] at hxy hyz ⊢
    exact le_trans hyz hxy
  have htotal : ∀ x y : PipelineOpp,
      ((decide (sortEdgeKey y ≤ sortEdgeKey x)) ||
        (decide (sortEdgeKey x ≤ sortEdgeKey y))) = true := by
    intro x y
    simpa using le_total (sortEdgeKey y) (sortEdgeKey x)
  refine ⟨?_, List.mergeSort_perm l _, ?_⟩
  · exact (List.sorted_mergeSort htrans htotal l).imp
      (fun h => by simpa using h)
  · intro a b hsub hkey
    exact List.pair_sublist_mergeSort htrans htotal (by simp [hkey]) hsub

/-- Witness for C6's amended theorem at the concrete two-element list of
the counterexample. -/
theorem sortOpportunities_sorted_witness :
    List.Sorted (fun a b => sortEdgeKey b ≤ sortEdgeKey a)
        (sortOpportunities [oppSmallDelta, oppMidDelta]) ∧
      (sortOpportunities [oppSmallDelta, oppMidDelta]).Perm
        [oppSmallDelta, oppMidDelta] :=
  ⟨(sortOpportunities_sorted [oppSmallDelta, oppMidDelta]).1,
    (sortOpportunities_sorted [oppSmallDelta, oppMidDelta]).2.1⟩

end Route

namespace Parser

set_option maxHeartbeats 4000000 in
unseal Rat.add Rat.mul Rat.inv Rat.sub Rat.ofScientific in
/-- C9 (amended).  The parser accepts
"Will Bitcoin hit $200k by December 31, 2025?" with symbol BTC, target
price 200000 (the `k` suffix multiplying 200 by 1000), bet type one-touch
(via "hit"), direction above, and an expiry whose wall-clock value is
2025-12-31 23:59:59 interpreted in the process-local timezone; the expiry
instant is `1767225599 - 60·tz` seconds for a process timezone `tz`
minutes east of UTC, so it equals the UTC instant 2025-12-31T23:59:59Z
exactly when the process runs with a UTC (offset-zero) timezone. -/
theorem parse_btc_200k_question :
    parseCryptoMarketQuestion "Will Bitcoin hit $200k by December 31, 2025?" =
        some
          { crypto := "BTC", targetPrice := 200000,
            expiryDate := some
              { year := 2025, month := 11, day := 31, hour := 23,
                minute := 59, second := 59 },
            betType := .oneTouch, direction := .above } ∧
      ∀ tz : ℤ,
        epochSeconds
          { year := 2025, month := 11, day := 31, hour := 23, minute := 59,
            second := 59 } tz = 1767225599 - tz * 60 := by
  constructor
  · decide
  · intro tz
    have h : daysFromCivil1970 2025 ((11 : ℤ).toNat + 1) (31 : ℤ).toNat
        = 20453 := by decide
    simp only [epochSeconds]
    rw [h]
    omega

set_option maxHeartbeats 4000000 in
unseal Rat.add Rat.mul Rat.inv Rat.sub Rat.ofScientific in
/-- Counterexample to C9 as stated: in a process whose timezone lies 60
minutes east of UTC, the expiry instant the parser produces for
"Will Bitcoin hit $200k by December 31, 2025?" is not the UTC instant
2025-12-31T23:59:59Z (epoch second 1767225599) — `new Date(y, m, d, …)`
builds a local-time instant, not a UTC one. -/
theorem parse_btc_200k_not_utc_instant :
    ((parseCryptoMarketQuestion
        "Will Bitcoin hit $200k by December 31, 2025?").bind
      (fun c => c.expiryDate.map (fun d => epochSeconds d 60))) ≠
      some 1767225599 := by
  decide

end Parser
